import Mathlib

/-
Shallow embedding of the driver of an incremental cranelift-based codegen
backend (`src/driver.rs`): the per-partition reuse decision
(`determine_cgu_reuse`), the two-phase translation of mono items
(`codegen_mono_items` / `trans_mono_item`), the emission pipeline
(`emit_module`), the AOT orchestrator (`run_aot`) and the JIT path
(`run_jit` / `load_imported_symbols_for_jit`).

External collaborators (rustc's dependency graph, the filesystem, the
cranelift module builder, `crate::abi` / `crate::linkage` / `crate::base`
helpers living outside this source file) are modelled as explicit state
or as oracle fields of an `ExternalCtx` record.  Side-effecting calls
thread a `Session` value recording the error count, an event trace, the
files written this session, the artifacts persisted to the incremental
cache and the in-session work-product map.  Aborts, panics and fatal
errors are `Except.error` carrying the message and, where a session is in
scope, the session at the point of failure.
-/

set_option maxRecDepth 4000

namespace CgClif

/-- Kinds of files a cached work product may record (`WorkProductFileKind`). -/
inductive WorkProductFileKind where
  | Object
  | Bytecode
  | BytecodeCompressed
deriving DecidableEq, Repr, Inhabited

/-- A previous-session work product: the list of (kind, cache-dir-relative
saved path) pairs (`WorkProduct { saved_files }`). -/
structure WorkProduct where
  saved_files : List (WorkProductFileKind × String)
deriving DecidableEq, Repr, Inhabited

/-- Reuse classification of a codegen unit (`CguReuse`).  `No` is
"NotReusable", `PreLto` is "ReusablePreFinal", `PostLto` is unreachable in
this backend. -/
inductive CguReuse where
  | No
  | PreLto
  | PostLto
deriving DecidableEq, Repr, Inhabited

/-- Kind of a compiled module (`ModuleKind`). -/
inductive ModuleKind where
  | Regular
  | Allocator
  | Metadata
deriving DecidableEq, Repr, Inhabited

/-- Result of emitting one module (`CompiledModule`): the bytecode fields
exist only for format parity and are never populated by this backend. -/
structure CompiledModule where
  name : String
  kind : ModuleKind
  object : Option String
  bytecode : Option String
  bytecode_compressed : Option String
deriving DecidableEq, Repr, Inhabited

/-- Source-level linkage as rustc reports it (`rustc::mir::mono::Linkage`,
abbreviated; only its role as an input to linkage resolution matters). -/
inductive RLinkage where
  | External
  | Internal
  | LinkOnceAny
deriving DecidableEq, Repr, Inhabited

/-- Symbol visibility (`rustc::mir::mono::Visibility`). -/
inductive Visibility where
  | Default
  | Hidden
  | Protected
deriving DecidableEq, Repr, Inhabited

/-- Cranelift-side linkage (`cranelift_module::Linkage`). -/
inductive Linkage where
  | Import
  | Local
  | Export
  | Hidden
deriving DecidableEq, Repr, Inhabited

/-- A mono item (`MonoItem`): a function instance, a static, or a global
assembly block carrying its raw text. -/
inductive MonoItem where
  | Fn (inst : String)
  | Static (defId : Nat)
  | GlobalAsm (asm : String)
deriving DecidableEq, Repr, Inhabited

/-- A codegen unit ("partition"): its name (which also serves as its
work-product id and the name of its codegen dep node) and its
deterministically ordered item list. -/
structure CodegenUnit where
  name : String
  items : List (MonoItem × RLinkage × Visibility)
deriving DecidableEq, Repr, Inhabited

/-- State of rustc's dependency-tracking service as this driver observes
it: whether incremental tracking is fully enabled, the previous-session
work products keyed by work-product id, the dep nodes already present in
the current session's graph, and the nodes for which `try_mark_green`
succeeds this session. -/
structure DepGraph where
  is_fully_enabled : Bool
  previous_work_products : List (String × WorkProduct)
  existing_nodes : List String
  green_nodes : List String
deriving DecidableEq, Repr, Inhabited

/-- Lookup of a previous-session work product (`dep_graph.previous_work_product`). -/
def DepGraph.previous_work_product (g : DepGraph) (id : String) : Option WorkProduct :=
  (g.previous_work_products.find? (fun p => p.1 == id)).map Prod.snd

/-- Membership test for a dep node (`dep_graph.dep_node_exists`). -/
def DepGraph.dep_node_exists (g : DepGraph) (n : String) : Bool :=
  g.existing_nodes.contains n

/-- Modelled from the spec: `dep_graph.try_mark_green` lives in rustc, not
in `src/`; per the spec it "mutates the dependency-tracking service's
internal graph state (registers/marks the node)" and "marking is a
one-time side-effecting operation per session", so the attempt registers
the node in the graph and succeeds exactly on the session's green nodes. -/
def DepGraph.try_mark_green (g : DepGraph) (n : String) : Option Unit × DepGraph :=
  (if g.green_nodes.contains n then some () else none,
   { g with existing_nodes := n :: g.existing_nodes })

/-- Assertion message of `determine_cgu_reuse` when the dep node already
exists before marking. -/
def dep_node_exists_msg (cguName : String) : String :=
  "CompileCodegenUnit dep-node for CGU `" ++ cguName ++ "` already exists before marking."

/-- Embedding of `determine_cgu_reuse` (driver.rs:508): return `No` when
the dep graph is not fully enabled or no previous work product exists;
assert that the codegen dep node does not already exist; then try to mark
it green, `PreLto` on success and `No` on failure.  An assertion failure
is `Except.error`. -/
def determine_cgu_reuse (g : DepGraph) (cgu : CodegenUnit) : Except String (CguReuse × DepGraph) :=
  if !g.is_fully_enabled then .ok (.No, g)
  else if (g.previous_work_product cgu.name).isNone then .ok (.No, g)
  else if g.dep_node_exists cgu.name then .error (dep_node_exists_msg cgu.name)
  else
    match g.try_mark_green cgu.name with
    | (some _, g2) => .ok (.PreLto, g2)
    | (none, g2) => .ok (.No, g2)

/-- Events recorded by the session trace: symbol declarations, body
generation, module finalization, reuse-tracker reports, file writes,
cache persistence/registration, copies from the cache, recorded session
errors, error-count checkpoints and the JIT hand-off. -/
inductive Event where
  | declareFn (name sig : String) (lk : Linkage)
  | genFnBody (inst : String) (lk : Linkage)
  | genStatic (defId : Nat)
  | finalizeCx
  | setActualReuse (cguName : String) (reuse : CguReuse)
  | writeObj (path : String)
  | persistWorkProduct (name : String)
  | registerWorkProduct (id : String)
  | copyFromCache (src dst : String)
  | sessionErr (msg : String)
  | checkpointErrors
  | jitRun (argv : List String)
deriving DecidableEq, Repr, Inhabited

/-- Session state threaded through the driver: the accumulated compile
error count (`sess.err` bumps it), the event trace, the session temp
files actually written, the artifacts persisted to the incremental cache,
and the in-session work-product map built by `run_aot`. -/
structure Session where
  errors : Nat
  events : List Event
  files : List String
  cache_files : List String
  work_products : List (String × WorkProduct)
deriving DecidableEq, Repr, Inhabited

/-- Record one event. -/
def Session.emit (s : Session) (e : Event) : Session :=
  { s with events := s.events ++ [e] }

/-- Record a list of events in order. -/
def Session.emits (s : Session) (es : List Event) : Session :=
  { s with events := s.events ++ es }

/-- Embedding of `tcx.sess.err`: record a diagnostic and bump the error
count. -/
def Session.err (s : Session) (m : String) : Session :=
  { s with errors := s.errors + 1, events := s.events ++ [Event.sessionErr m] }

/-- The empty starting session. -/
def emptySession : Session :=
  { errors := 0, events := [], files := [], cache_files := [], work_products := [] }

/-- Oracles for the external collaborators: symbol naming and signatures
(`get_function_name_and_sig` in `crate::abi`), linkage resolution
(`crate::linkage::get_clif_linkage`), whether a function body hits a
"not yet supported" construct (`crate::base::trans_fn` under
`crate::unimpl::try_unimpl`, per the spec's recoverable-per-item error
class), the session temp-path builder (`output_filenames().temp_path`),
metadata CGU naming and temp path, whether persisting a work product to
the incremental cache succeeds
(`copy_cgu_workproducts_to_incr_comp_cache_dir`), the cache-dir-relative
saved path it records, the incremental session directory, whether
`link_or_copy` succeeds for a given saved file, whether the allocator
generator emits a shim, and the JIT-side oracles (exported dynamic
symbols per dylib, extra args, exit code). -/
structure ExternalCtx where
  fn_name : String → String
  fn_sig : String → String
  clif_linkage : MonoItem → RLinkage → Visibility → Linkage
  fn_unimpl : String → Bool
  temp_path : String → String
  metadata_cgu_name : String → String
  metadata_temp_path : String → String
  persist_ok : String → Bool
  incr_saved_path : String → String
  incr_comp_dir : String
  copy_ok : String → Bool
  alloc_shim : Bool
  dylib_symbols : String → List (String × Nat)
  jit_args : String
  jit_exit_code : Int

/-- Concrete oracle instance used for witnesses and counterexamples. -/
def testCtx : ExternalCtx where
  fn_name := fun inst => "sym_" ++ inst
  fn_sig := fun _ => "sig"
  clif_linkage := fun _ _ _ => Linkage.Export
  fn_unimpl := fun _ => false
  temp_path := fun name => "tmp/" ++ name ++ ".o"
  metadata_cgu_name := fun crate => crate ++ ".metadata"
  metadata_temp_path := fun name => "tmp/" ++ name ++ ".metadata.o"
  persist_ok := fun _ => true
  incr_saved_path := fun name => name ++ ".saved.o"
  incr_comp_dir := "incr"
  copy_ok := fun _ => true
  alloc_shim := false
  dylib_symbols := fun _ => []
  jit_args := ""
  jit_exit_code := 0

/-- Does `needle` occur at the start of `hay`? (character-list version) -/
def charsHasPre : List Char → List Char → Bool
  | [], _ => true
  | _ :: _, [] => false
  | a :: as, b :: bs => a == b && charsHasPre as bs

/-- Does `needle` occur anywhere in `hay`? (character-list version) -/
def charsContains (hay needle : List Char) : Bool :=
  match hay with
  | [] => needle.isEmpty
  | _ :: tl => charsHasPre needle hay || charsContains tl needle

/-- Embedding of Rust's `str::contains` for the substring case. -/
def strContains (hay needle : String) : Bool :=
  charsContains hay.toList needle.toList

/-- One entry per mono item: the item plus its (linkage, visibility) pair
as rustc hands it to the backend. -/
abbrev ItemEntry := MonoItem × RLinkage × Visibility

/-- Outcome of `trans_mono_item` for one item: generated events, a
"not yet supported" diagnostic caught by `try_unimpl` (recorded as a
session error by the caller), or a fatal compile error. -/
inductive TransOutcome where
  | ok (events : List Event)
  | unimplErr (msg : String)
  | fatalErr (msg : String)
deriving DecidableEq, Repr, Inhabited

/-- Embedding of `trans_mono_item` (driver.rs:439): a function instance is
translated (its body generation may hit a recoverable "not yet supported"
construct, modelled by the `fn_unimpl` oracle per spec §7 since
`crate::base::trans_fn` is outside this source file); a static's
initializer is generated; a global-assembly item is a silent no-op when
its text contains `__rust_probestack` and otherwise a fatal error naming
the text. -/
def trans_mono_item (ctx : ExternalCtx) (item : MonoItem) (lk : Linkage) : TransOutcome :=
  match item with
  | MonoItem.Fn inst =>
      if ctx.fn_unimpl inst then TransOutcome.unimplErr ("not yet supported: " ++ inst)
      else TransOutcome.ok [Event.genFnBody inst lk]
  | MonoItem.Static defId => TransOutcome.ok [Event.genStatic defId]
  | MonoItem.GlobalAsm asm =>
      if strContains asm "__rust_probestack" then TransOutcome.ok []
      else TransOutcome.fatalErr ("Unimplemented global asm mono item \"" ++ asm ++ "\"")

/-- Declaration events produced by the predefine phase: one `declareFn`
per `Fn` item, nothing for `Static` or `GlobalAsm` items. -/
def declares (ctx : ExternalCtx) (items : List ItemEntry) : List Event :=
  items.filterMap fun t =>
    match t.1 with
    | MonoItem.Fn inst =>
        some (Event.declareFn (ctx.fn_name inst) (ctx.fn_sig inst)
          (ctx.clif_linkage t.1 t.2.1 t.2.2))
    | _ => none

/-- Embedding of the "predefine functions" loop of `codegen_mono_items`
(driver.rs:415): for every `Fn` item compute name, signature and resolved
linkage and declare the symbol; `Static` and `GlobalAsm` items are
skipped. -/
def predefine_functions (ctx : ExternalCtx) : List ItemEntry → Session → Session
  | [], s => s
  | (item, lk, vis) :: rest, s =>
      match item with
      | MonoItem.Fn inst =>
          predefine_functions ctx rest
            (s.emit (Event.declareFn (ctx.fn_name inst) (ctx.fn_sig inst)
              (ctx.clif_linkage item lk vis)))
      | _ => predefine_functions ctx rest s

/-- Embedding of the body-generation loop of `codegen_mono_items`
(driver.rs:429): each item is translated under `try_unimpl`, which turns
a "not yet supported" outcome into a recorded session error and
continues; a fatal outcome aborts. -/
def codegen_items_loop (ctx : ExternalCtx) :
    List ItemEntry → Session → Except (String × Session) Session
  | [], s => .ok s
  | t :: rest, s =>
      match trans_mono_item ctx t.1 (ctx.clif_linkage t.1 t.2.1 t.2.2) with
      | TransOutcome.ok evs => codegen_items_loop ctx rest (s.emits evs)
      | TransOutcome.unimplErr m => codegen_items_loop ctx rest (s.err m)
      | TransOutcome.fatalErr m => .error (m, s)

/-- Embedding of `codegen_mono_items` (driver.rs:407): predefine all
functions, then generate all bodies, then finalize the codegen context. -/
def codegen_mono_items (ctx : ExternalCtx) (items : List ItemEntry) (s : Session) :
    Except (String × Session) Session :=
  match codegen_items_loop ctx items (predefine_functions ctx items s) with
  | .ok s2 => .ok (s2.emit Event.finalizeCx)
  | .error e => .error e

/-- Is this event a symbol predeclaration? -/
def isDeclareEvent : Event → Bool
  | Event.declareFn _ _ _ => true
  | _ => false

/-- Is this event part of translating program items (declaring a symbol or
generating a body)? -/
def isTranslationEvent : Event → Bool
  | Event.declareFn _ _ _ => true
  | Event.genFnBody _ _ => true
  | Event.genStatic _ => true
  | Event.finalizeCx => true
  | _ => false

/-- Orchestrator configuration: the global "disable incremental cache"
switch (`CG_CLIF_INCR_CACHE_DISABLED`). -/
structure Config where
  incr_cache_disabled : Bool
deriving DecidableEq, Repr, Inhabited

/-- Insert-or-overwrite into the in-session work-product map
(`work_products.insert`). -/
def wpInsert (m : List (String × WorkProduct)) (id : String) (wp : WorkProduct) :
    List (String × WorkProduct) :=
  (id, wp) :: m.filter (fun p => p.1 ≠ id)

/-- Embedding of `emit_module` (driver.rs:196): finalize and finish the
module (optionally merging debug info — no observable effect here), write
the object bytes to the session temp path, and, unless the incremental
cache is disabled, ask `copy_cgu_workproducts_to_incr_comp_cache_dir` to
persist the object (the `persist_ok` oracle decides whether it returns a
record); return the `CompiledModule` naming the written path plus the
optional work product. -/
def emit_module (cfg : Config) (ctx : ExternalCtx) (name : String) (kind : ModuleKind)
    (s : Session) : (CompiledModule × Option (String × WorkProduct)) × Session :=
  let tmp_file := ctx.temp_path name
  let s1 : Session :=
    { s with files := s.files ++ [tmp_file], events := s.events ++ [Event.writeObj tmp_file] }
  if cfg.incr_cache_disabled then
    (({ name := name, kind := kind, object := some tmp_file,
        bytecode := none, bytecode_compressed := none }, none), s1)
  else if ctx.persist_ok name then
    (({ name := name, kind := kind, object := some tmp_file,
        bytecode := none, bytecode_compressed := none },
      some (name, { saved_files := [(WorkProductFileKind.Object, ctx.incr_saved_path name)] })),
     { s1 with cache_files := s1.cache_files ++ [ctx.incr_saved_path name],
               events := s1.events ++ [Event.persistWorkProduct name] })
  else
    (({ name := name, kind := kind, object := some tmp_file,
        bytecode := none, bytecode_compressed := none }, none), s1)

/-- Embedding of the saved-files loop of the `CguReuse::PreLto` arm of
`run_aot` (driver.rs:260): for each saved file, an `Object` kind computes
the session temp path, records it as the module's object and
links-or-copies the cached file there (a copy failure is recorded as a
session error and processing continues); any bytecode kind panics. -/
def copy_reused_files (ctx : ExternalCtx) (cguName : String) :
    List (WorkProductFileKind × String) → Option String → Session →
      Except (String × Session) (Option String × Session)
  | [], object, s => .ok (object, s)
  | (kind, saved_file) :: rest, _object, s =>
      match kind with
      | WorkProductFileKind.Object =>
          let path := ctx.temp_path cguName
          let source_file := ctx.incr_comp_dir ++ "/" ++ saved_file
          let s1 := s.emit (Event.copyFromCache source_file path)
          let s2 := if ctx.copy_ok saved_file then { s1 with files := s1.files ++ [path] }
                    else s1.err ("unable to copy " ++ source_file ++ " to " ++ path)
          copy_reused_files ctx cguName rest (some path) s2
      | _ => .error ("cg_clif doesn't use bytecode", s)

/-- Events appended by `copy_reused_files` on an all-`Object` list. -/
def copyEvents (ctx : ExternalCtx) (cguName : String) :
    List (WorkProductFileKind × String) → List Event
  | [] => []
  | (_, saved_file) :: rest =>
      let path := ctx.temp_path cguName
      let source_file := ctx.incr_comp_dir ++ "/" ++ saved_file
      (Event.copyFromCache source_file path ::
        (if ctx.copy_ok saved_file then []
         else [Event.sessionErr ("unable to copy " ++ source_file ++ " to " ++ path)])) ++
        copyEvents ctx cguName rest

/-- Embedding of the fresh-translation path of the per-CGU loop of
`run_aot` (driver.rs:295): `with_task` registers the CGU's codegen dep
node (when tracking is enabled) and runs `module_codegen`, which
translates the CGU's items and emits the module (the entry-wrapper and
debug-context collaborators have no observable effect here); a produced
work product is then registered in the session map. -/
def module_codegen_and_register (cfg : Config) (ctx : ExternalCtx) (cgu : CodegenUnit)
    (g : DepGraph) (s : Session) :
    Except (String × Session) (CompiledModule × DepGraph × Session) :=
  let g1 := if g.is_fully_enabled then
      { g with existing_nodes := cgu.name :: g.existing_nodes } else g
  match codegen_mono_items ctx cgu.items s with
  | .error e => .error e
  | .ok s1 =>
      match emit_module cfg ctx cgu.name ModuleKind.Regular s1 with
      | ((module, some (id, product)), s2) =>
          .ok (module, g1,
            { s2 with work_products := wpInsert s2.work_products id product,
                      events := s2.events ++ [Event.registerWorkProduct id] })
      | ((module, none), s2) => .ok (module, g1, s2)

/-- Embedding of the body of the per-CGU loop of `run_aot`
(driver.rs:248): determine the reuse classification, report it to the
reuse tracker, then: with the incremental cache disabled fall through to
fresh translation regardless of the classification; on `No` translate
fresh; on `PreLto` copy the cached files into the session, register the
work product and return the reused module; `PostLto` is unreachable. -/
def process_cgu (cfg : Config) (ctx : ExternalCtx) (cgu : CodegenUnit) (g : DepGraph)
    (s : Session) : Except (String × Session) (CompiledModule × DepGraph × Session) :=
  match determine_cgu_reuse g cgu with
  | .error m => .error (m, s)
  | .ok (cgu_reuse, g1) =>
      let s1 := s.emit (Event.setActualReuse cgu.name cgu_reuse)
      if cfg.incr_cache_disabled then
        module_codegen_and_register cfg ctx cgu g1 s1
      else
        match cgu_reuse with
        | CguReuse.No => module_codegen_and_register cfg ctx cgu g1 s1
        | CguReuse.PreLto =>
            match g1.previous_work_product cgu.name with
            | none => .error ("missing previous work product for " ++ cgu.name, s1)
            | some work_product =>
                match copy_reused_files ctx cgu.name work_product.saved_files none s1 with
                | .error e => .error e
                | .ok (object, s2) =>
                    .ok ({ name := cgu.name, kind := ModuleKind.Regular, object := object,
                           bytecode := none, bytecode_compressed := none }, g1,
                      { s2 with
                        work_products := wpInsert s2.work_products cgu.name work_product,
                        events := s2.events ++ [Event.registerWorkProduct cgu.name] })
        | CguReuse.PostLto => .error ("internal error: entered unreachable code", s1)

/-- The per-CGU loop of `run_aot` over all partitions, in order. -/
def process_cgus (cfg : Config) (ctx : ExternalCtx) :
    List CodegenUnit → DepGraph → Session →
      Except (String × Session) (List CompiledModule × DepGraph × Session)
  | [], g, s => .ok ([], g, s)
  | cgu :: rest, g, s =>
      match process_cgu cfg ctx cgu g s with
      | .error e => .error e
      | .ok (m, g1, s1) =>
          match process_cgus cfg ctx rest g1 s1 with
          | .error e => .error e
          | .ok (ms, g2, s2) => .ok (m :: ms, g2, s2)

/-- Embedding of `tcx.sess.abort_if_errors`: consult the accumulated error
count (recorded as a checkpoint event) and abort when it is non-zero. -/
def abort_if_errors (s : Session) : Except (String × Session) Session :=
  let s1 := s.emit Event.checkpointErrors
  if s1.errors == 0 then .ok s1 else .error ("aborting due to previous errors", s1)

/-- The orchestrator's final artifact manifest (`CodegenResults`,
restricted to the fields this driver decides; the windows-subsystem field
is always unset). -/
structure CodegenResults where
  crate_name : String
  modules : List CompiledModule
  allocator_module : Option CompiledModule
  metadata_module : Option CompiledModule
  windows_subsystem : Option String
deriving DecidableEq, Repr, Inhabited

/-- Embedding of the allocator-shim block of `run_aot` (driver.rs:337):
always attempt generation; when the generator emitted a shim, the module
is emitted like a partition module and its work product (if any) is
registered. -/
def emit_allocator (cfg : Config) (ctx : ExternalCtx) (s : Session) :
    Option CompiledModule × Session :=
  if ctx.alloc_shim then
    match emit_module cfg ctx "allocator_shim" ModuleKind.Allocator s with
    | ((m, some (id, product)), sa) =>
        (some m, { sa with work_products := wpInsert sa.work_products id product,
                           events := sa.events ++ [Event.registerWorkProduct id] })
    | ((m, none), sa) => (some m, sa)
  else (none, s)

/-- Embedding of the metadata-module block of `run_aot` (driver.rs:359):
when requested, serialize crate metadata to a temp path and wrap it as a
`Metadata` module; never cached, no debug info. -/
def emit_metadata (ctx : ExternalCtx) (crateName : String) (need_metadata_module : Bool)
    (s : Session) : Option CompiledModule × Session :=
  if need_metadata_module then
    (some { name := ctx.metadata_cgu_name crateName, kind := ModuleKind.Metadata,
            object := some (ctx.metadata_temp_path (ctx.metadata_cgu_name crateName)),
            bytecode := none, bytecode_compressed := none },
     { s with
       files := s.files ++ [ctx.metadata_temp_path (ctx.metadata_cgu_name crateName)],
       events := s.events ++
         [Event.writeObj (ctx.metadata_temp_path (ctx.metadata_cgu_name crateName))] })
  else (none, s)

/-- Embedding of `run_aot` (driver.rs:173): process every partition,
consult the error count, unconditionally attempt the allocator shim,
optionally write the metadata module, and return the manifest plus the
session work-product map. -/
def run_aot (cfg : Config) (ctx : ExternalCtx) (crateName : String)
    (cgus : List CodegenUnit) (g : DepGraph) (need_metadata_module : Bool) (s : Session) :
    Except (String × Session) (CodegenResults × List (String × WorkProduct) × Session) :=
  match process_cgus cfg ctx cgus g s with
  | .error e => .error e
  | .ok (modules, _g1, s1) =>
      match abort_if_errors s1 with
      | .error e => .error e
      | .ok s2 =>
          match emit_allocator cfg ctx s2 with
          | (allocator_module, s3) =>
              match emit_metadata ctx crateName need_metadata_module s3 with
              | (metadata_module, s4) =>
                  .ok ({ crate_name := crateName, modules := modules,
                         allocator_module := allocator_module,
                         metadata_module := metadata_module,
                         windows_subsystem := none },
                       s4.work_products, s4)

/-- Linkage of a dependency crate as the JIT path sees it
(`rustc::middle::dependency_format::Linkage`). -/
inductive DepLinkage where
  | NotLinked
  | IncludedFromDylib
  | Static
  | Dynamic
deriving DecidableEq, Repr, Inhabited

/-- One dependency crate in JIT mode: its name, its linkage and (for
dynamic dependencies) its dylib path. -/
structure JitDep where
  name : String
  linkage : DepLinkage
  dylib_path : String
deriving DecidableEq, Repr, Inhabited

/-- The dependency loop of `load_imported_symbols_for_jit`
(driver.rs:125): not-linked and included-from-dylib crates are skipped; a
statically linked crate records a session error naming it; a dynamic
crate contributes its dylib path. -/
def collect_jit_deps : List JitDep → Session → List String × Session
  | [], s => ([], s)
  | d :: rest, s =>
      match d.linkage with
      | DepLinkage.Static => collect_jit_deps rest (s.err ("Can't load static lib " ++ d.name))
      | DepLinkage.Dynamic =>
          let (paths, s1) := collect_jit_deps rest s
          (d.dylib_path :: paths, s1)
      | _ => collect_jit_deps rest s

/-- Embedding of `load_imported_symbols_for_jit` (driver.rs:113): walk the
dependencies (recording an error for every statically linked one), harvest
the exported dynamic symbols of each dylib (the `dylib_symbols` oracle
stands for loading the library and filtering its global, defined,
non-empty-named symbols), then abort if any errors were recorded. -/
def load_imported_symbols_for_jit (ctx : ExternalCtx) (deps : List JitDep) (s : Session) :
    Except (String × Session) (List (String × Nat) × Session) :=
  match collect_jit_deps deps s with
  | (dylib_paths, s1) =>
      let imported_symbols := (dylib_paths.map ctx.dylib_symbols).flatten
      match abort_if_errors s1 with
      | .error e => .error e
      | .ok s2 => .ok (imported_symbols, s2)

/-- Embedding of `run_jit` (driver.rs:38): resolve imported symbols first
(this is where a statically linked dependency aborts the run), declare the
`main` entry symbol, translate all mono items into the single in-memory
module (the entry-wrapper and allocator collaborators have no observable
effect here), abort if errors were recorded, then build the argument
vector and hand control to the generated program, yielding its exit
code. -/
def run_jit (ctx : ExternalCtx) (crateName : String) (deps : List JitDep)
    (mono_items : List ItemEntry) (s : Session) :
    Except (String × Session) (Session × Int) :=
  match load_imported_symbols_for_jit ctx deps s with
  | .error e => .error e
  | .ok (_imported_symbols, s1) =>
      let s2 := s1.emit (Event.declareFn "main" "fn(isize, argv) -> isize" Linkage.Import)
      match codegen_mono_items ctx mono_items s2 with
      | .error e => .error e
      | .ok s3 =>
          match abort_if_errors s3 with
          | .error e => .error e
          | .ok s4 =>
              let argv := (ctx.jit_args.splitOn " ") ++ [crateName]
              .ok (s4.emit (Event.jitRun argv), ctx.jit_exit_code)

/-- Items used by the C1 witness. -/
def c1Items : List ItemEntry :=
  [(MonoItem.Fn "a", RLinkage.External, Visibility.Default),
   (MonoItem.Static 7, RLinkage.Internal, Visibility.Hidden),
   (MonoItem.GlobalAsm "__rust_probestack", RLinkage.External, Visibility.Default)]

/-- Session resulting from the C1 witness run. -/
def c1Result : Session :=
  { errors := 0,
    events := [Event.declareFn "sym_a" "sig" Linkage.Export,
               Event.genFnBody "a" Linkage.Export,
               Event.genStatic 7,
               Event.finalizeCx],
    files := [], cache_files := [], work_products := [] }

/- ------------------------------------------------------------------ -/
/- Theorems.                                                          -/
/- ------------------------------------------------------------------ -/

theorem Session.emits_nil (s : Session) : s.emits [] = s := by
  simp [Session.emits]

theorem Session.emit_emits (s : Session) (e : Event) (l : List Event) :
    (s.emit e).emits l = s.emits (e :: l) := by
  simp [Session.emit, Session.emits]

theorem Session.emits_emits (s : Session) (l1 l2 : List Event) :
    (s.emits l1).emits l2 = s.emits (l1 ++ l2) := by
  simp [Session.emits]

/-- Shared lemma: on a fresh node with tracking enabled and a work product
present, `determine_cgu_reuse` maps the mark-green outcome to the reuse
classification and registers the node. -/
theorem determine_cgu_reuse_fresh (g : DepGraph) (cgu : CodegenUnit)
    (henabled : g.is_fully_enabled = true)
    (hwp : (g.previous_work_product cgu.name).isSome = true)
    (hnode : g.dep_node_exists cgu.name = false) :
    determine_cgu_reuse g cgu =
      .ok ((if g.green_nodes.contains cgu.name then CguReuse.PreLto else CguReuse.No),
        { g with existing_nodes := cgu.name :: g.existing_nodes }) := by
  obtain ⟨wp, hwpeq⟩ := Option.isSome_iff_exists.mp hwp
  rw [determine_cgu_reuse]
  rw [henabled, hwpeq, hnode]
  simp only [Bool.not_true, Bool.false_eq_true, if_false, Option.isNone_some, if_true]
  rw [DepGraph.try_mark_green]
  cases hg : g.green_nodes.contains cgu.name <;> simp [henabled]

/-- Shared lemma: with tracking enabled and a work product present, a dep
node already in the graph trips the assertion. -/
theorem determine_cgu_reuse_asserts (g : DepGraph) (cgu : CodegenUnit)
    (henabled : g.is_fully_enabled = true)
    (hwp : (g.previous_work_product cgu.name).isSome = true)
    (hnode : g.dep_node_exists cgu.name = true) :
    determine_cgu_reuse g cgu = .error (dep_node_exists_msg cgu.name) := by
  obtain ⟨wp, hwpeq⟩ := Option.isSome_iff_exists.mp hwp
  rw [determine_cgu_reuse, henabled, hwpeq, hnode]
  simp

/-- C2: with dependency tracking fully enabled, a previous-session work
product present, and the dep node not yet in the graph (the spec's own
precondition for this call), `determine_cgu_reuse` returns
`ReusablePreFinal` (`PreLto`) exactly when marking the node green
succeeds, and `NotReusable` (`No`) when it fails; either way the node is
registered. -/
theorem c2_reuse_is_green_marking (g : DepGraph) (cgu : CodegenUnit)
    (henabled : g.is_fully_enabled = true)
    (hwp : (g.previous_work_product cgu.name).isSome = true)
    (hnode : g.dep_node_exists cgu.name = false) :
    determine_cgu_reuse g cgu =
      .ok ((if g.green_nodes.contains cgu.name then CguReuse.PreLto else CguReuse.No),
        { g with existing_nodes := cgu.name :: g.existing_nodes }) :=
  determine_cgu_reuse_fresh g cgu henabled hwp hnode

/-- Witness for C2 at a concrete graph where marking succeeds. -/
theorem c2_reuse_is_green_marking_witness :
    determine_cgu_reuse
      { is_fully_enabled := true,
        previous_work_products := [("cgu0", { saved_files := [] })],
        existing_nodes := [], green_nodes := ["cgu0"] }
      { name := "cgu0", items := [] } =
      .ok ((if (["cgu0"] : List String).contains "cgu0" then CguReuse.PreLto else CguReuse.No),
        { is_fully_enabled := true,
          previous_work_products := [("cgu0", { saved_files := [] })],
          existing_nodes := ["cgu0"], green_nodes := ["cgu0"] }) :=
  c2_reuse_is_green_marking
    { is_fully_enabled := true,
      previous_work_products := [("cgu0", { saved_files := [] })],
      existing_nodes := [], green_nodes := ["cgu0"] }
    { name := "cgu0", items := [] }
    (by decide) (by decide) (by decide)

/-- C3: with dependency tracking not fully enabled, or with no
previous-session work product recorded for the partition's identity, the
reuse decision returns `NotReusable` (`No`) and leaves the graph
untouched. -/
theorem c3_disabled_or_no_wp_not_reusable (g : DepGraph) (cgu : CodegenUnit)
    (h : g.is_fully_enabled = false ∨ g.previous_work_product cgu.name = none) :
    determine_cgu_reuse g cgu = .ok (CguReuse.No, g) := by
  rcases h with hdis | hnowp
  · rw [determine_cgu_reuse, hdis]
    simp
  · rw [determine_cgu_reuse, hnowp]
    cases hen : g.is_fully_enabled <;> simp

/-- Witness for C3: both disjuncts at concrete graphs. -/
theorem c3_disabled_or_no_wp_not_reusable_witness :
    determine_cgu_reuse
      { is_fully_enabled := false,
        previous_work_products := [("cgu0", { saved_files := [] })],
        existing_nodes := [], green_nodes := [] }
      { name := "cgu0", items := [] } =
      .ok (CguReuse.No,
        { is_fully_enabled := false,
          previous_work_products := [("cgu0", { saved_files := [] })],
          existing_nodes := [], green_nodes := [] }) ∧
    determine_cgu_reuse
      { is_fully_enabled := true, previous_work_products := [],
        existing_nodes := [], green_nodes := [] }
      { name := "cgu1", items := [] } =
      .ok (CguReuse.No,
        { is_fully_enabled := true, previous_work_products := [],
          existing_nodes := [], green_nodes := [] }) :=
  ⟨c3_disabled_or_no_wp_not_reusable _ _ (Or.inl (by decide)),
   c3_disabled_or_no_wp_not_reusable _ _ (Or.inr (by decide))⟩

/-- C8: calling the reuse decision a second time for the same partition in
one session fails the assertion that the partition's dep node does not
already exist, because the first call's marking attempt registered the
node (the assertion sits before the marking attempt, so the second call
dies without marking). -/
theorem c8_second_call_asserts (g : DepGraph) (cgu : CodegenUnit)
    (henabled : g.is_fully_enabled = true)
    (hwp : (g.previous_work_product cgu.name).isSome = true)
    (hnode : g.dep_node_exists cgu.name = false) :
    ∃ r g2, determine_cgu_reuse g cgu = .ok (r, g2) ∧
      determine_cgu_reuse g2 cgu = .error (dep_node_exists_msg cgu.name) := by
  refine ⟨(if g.green_nodes.contains cgu.name then CguReuse.PreLto else CguReuse.No),
    { g with existing_nodes := cgu.name :: g.existing_nodes },
    determine_cgu_reuse_fresh g cgu henabled hwp hnode, ?_⟩
  exact determine_cgu_reuse_asserts _ cgu henabled hwp
    (by simp [DepGraph.dep_node_exists])

/-- Witness for C8 at a concrete graph. -/
theorem c8_second_call_asserts_witness :
    ∃ r g2, determine_cgu_reuse
        { is_fully_enabled := true,
          previous_work_products := [("cgu0", { saved_files := [] })],
          existing_nodes := [], green_nodes := [] }
        { name := "cgu0", items := [] } = .ok (r, g2) ∧
      determine_cgu_reuse g2 { name := "cgu0", items := [] } =
        .error (dep_node_exists_msg "cgu0") :=
  c8_second_call_asserts _ _ (by decide) (by decide) (by decide)

theorem predefine_functions_eq (ctx : ExternalCtx) (items : List ItemEntry) (s : Session) :
    predefine_functions ctx items s = s.emits (declares ctx items) := by
  induction items generalizing s with
  | nil => simp [predefine_functions, declares, Session.emits]
  | cons t rest ih =>
      obtain ⟨item, lk, vis⟩ := t
      cases item with
      | Fn inst =>
          have h1 : predefine_functions ctx ((MonoItem.Fn inst, lk, vis) :: rest) s =
              predefine_functions ctx rest
                (s.emit (Event.declareFn (ctx.fn_name inst) (ctx.fn_sig inst)
                  (ctx.clif_linkage (MonoItem.Fn inst) lk vis))) := rfl
          rw [h1, ih, Session.emit_emits]
          rfl
      | Static defId =>
          have h1 : predefine_functions ctx ((MonoItem.Static defId, lk, vis) :: rest) s =
              predefine_functions ctx rest s := rfl
          rw [h1, ih]
          rfl
      | GlobalAsm asm =>
          have h1 : predefine_functions ctx ((MonoItem.GlobalAsm asm, lk, vis) :: rest) s =
              predefine_functions ctx rest s := rfl
          rw [h1, ih]
          rfl

theorem codegen_items_loop_events (ctx : ExternalCtx) (items : List ItemEntry)
    (s s2 : Session) (h : codegen_items_loop ctx items s = .ok s2) :
    ∃ tail, s2.events = s.events ++ tail ∧
      (∀ e ∈ tail, isDeclareEvent e = false ∧ e ≠ Event.checkpointErrors) ∧
      s2.files = s.files ∧ s2.cache_files = s.cache_files ∧
      s2.work_products = s.work_products := by
  induction items generalizing s with
  | nil =>
      rw [codegen_items_loop] at h
      cases h
      exact ⟨[], by simp, by simp, rfl, rfl, rfl⟩
  | cons t rest ih =>
      obtain ⟨item, lk, vis⟩ := t
      cases item with
      | Fn inst =>
          rw [codegen_items_loop] at h
          by_cases hui : ctx.fn_unimpl inst = true
          · rw [trans_mono_item] at h
            simp only [hui, if_true] at h
            obtain ⟨tail, htail, hnd, hf, hc, hw⟩ := ih _ h
            refine ⟨Event.sessionErr ("not yet supported: " ++ inst) :: tail, ?_, ?_,
              hf, hc, hw⟩
            · rw [htail]; simp [Session.err]
            · intro e he
              rcases List.mem_cons.mp he with rfl | he2
              · exact ⟨rfl, by simp⟩
              · exact hnd e he2
          · rw [trans_mono_item] at h
            simp only [hui, if_false, Bool.false_eq_true] at h
            obtain ⟨tail, htail, hnd, hf, hc, hw⟩ := ih _ h
            refine ⟨Event.genFnBody inst (ctx.clif_linkage (MonoItem.Fn inst) lk vis) :: tail,
              ?_, ?_, hf, hc, hw⟩
            · rw [htail]; simp [Session.emits]
            · intro e he
              rcases List.mem_cons.mp he with rfl | he2
              · exact ⟨rfl, by simp⟩
              · exact hnd e he2
      | Static defId =>
          rw [codegen_items_loop, trans_mono_item] at h
          obtain ⟨tail, htail, hnd, hf, hc, hw⟩ := ih _ h
          refine ⟨Event.genStatic defId :: tail, ?_, ?_, hf, hc, hw⟩
          · rw [htail]; simp [Session.emits]
          · intro e he
            rcases List.mem_cons.mp he with rfl | he2
            · exact ⟨rfl, by simp⟩
            · exact hnd e he2
      | GlobalAsm asm =>
          rw [codegen_items_loop, trans_mono_item] at h
          by_cases hps : strContains asm "__rust_probestack" = true
          · simp only [hps, if_true] at h
            obtain ⟨tail, htail, hnd, hf, hc, hw⟩ := ih _ h
            exact ⟨tail, by rw [htail]; simp [Session.emits], hnd, hf, hc, hw⟩
          · simp only [hps, if_false, Bool.false_eq_true] at h
            cases h

theorem declares_only_fn (ctx : ExternalCtx) (items : List ItemEntry) :
    declares ctx items =
      declares ctx (items.filter fun t =>
        match t.1 with
        | MonoItem.Fn _ => true
        | _ => false) := by
  induction items with
  | nil => rfl
  | cons t rest ih =>
      obtain ⟨item, lk, vis⟩ := t
      cases item with
      | Fn inst => exact congrArg (List.cons _) ih
      | Static defId => exact ih
      | GlobalAsm asm => exact ih

theorem declares_all_declare (ctx : ExternalCtx) (items : List ItemEntry) :
    ∀ e ∈ declares ctx items, isDeclareEvent e = true := by
  induction items with
  | nil => intro e he; cases he
  | cons t rest ih =>
      obtain ⟨item, lk, vis⟩ := t
      intro e he
      cases item with
      | Fn inst =>
          rw [declares, List.filterMap_cons] at he
          rcases List.mem_cons.mp he with rfl | he2
          · rfl
          · exact ih e he2
      | Static defId =>
          rw [declares, List.filterMap_cons] at he
          exact ih e he
      | GlobalAsm asm =>
          rw [declares, List.filterMap_cons] at he
          exact ih e he

/-- C1: for every item list, `codegen_mono_items` first appends exactly
the predeclaration events (one `declareFn` per `Fn` item; `Static` and
`GlobalAsm` items contribute nothing, as the predeclaration output of the
item list equals that of its `Fn`-only restriction) and only then the
body-generation events, among which no symbol predeclaration occurs: every
function is declared before the body of any item is generated. -/
theorem c1_two_phase (ctx : ExternalCtx) (items : List ItemEntry) (s s2 : Session)
    (h : codegen_mono_items ctx items s = .ok s2) :
    ∃ bodyEvs, s2.events = s.events ++ declares ctx items ++ bodyEvs ∧
      (∀ e ∈ declares ctx items, isDeclareEvent e = true) ∧
      (∀ e ∈ bodyEvs, isDeclareEvent e = false) ∧
      declares ctx items =
        declares ctx (items.filter fun t =>
          match t.1 with
          | MonoItem.Fn _ => true
          | _ => false) := by
  rw [codegen_mono_items] at h
  cases hloop : codegen_items_loop ctx items (predefine_functions ctx items s) with
  | error e => rw [hloop] at h; cases h
  | ok smid =>
      rw [hloop] at h
      cases h
      obtain ⟨tail, htail, hnd, _, _, _⟩ := codegen_items_loop_events ctx items _ smid hloop
      refine ⟨tail ++ [Event.finalizeCx], ?_, declares_all_declare ctx items, ?_,
        declares_only_fn ctx items⟩
      · rw [Session.emit, htail, predefine_functions_eq, Session.emits]
        simp
      · intro e he
        rcases List.mem_append.mp he with he2 | he2
        · exact (hnd e he2).1
        · rcases List.mem_singleton.mp he2 with rfl
          rfl

/-- Witness for C1 at a concrete item list containing all three item
kinds. -/
theorem c1_two_phase_witness :
    ∃ bodyEvs, c1Result.events = emptySession.events ++ declares testCtx c1Items ++ bodyEvs ∧
      (∀ e ∈ declares testCtx c1Items, isDeclareEvent e = true) ∧
      (∀ e ∈ bodyEvs, isDeclareEvent e = false) ∧
      declares testCtx c1Items =
        declares testCtx (c1Items.filter fun t =>
          match t.1 with
          | MonoItem.Fn _ => true
          | _ => false) :=
  c1_two_phase testCtx c1Items emptySession c1Result (by rfl)

/-- C6 counterexample: a global-assembly text that is not the recognized
marker itself but strictly contains it is still a silent no-op, so "any
other text causes an unconditional fatal compile error" fails as stated. -/
theorem c6_counterexample :
    ("call __rust_probestack" ≠ "__rust_probestack") ∧
    trans_mono_item testCtx (MonoItem.GlobalAsm "call __rust_probestack") Linkage.Export =
      TransOutcome.ok [] := by
  exact ⟨by decide, by decide⟩

/-- C6 amended: a `GlobalAsm` item is a silent no-op (no code, no error)
exactly when its raw text contains the recognized stack-probe marker
`__rust_probestack`; any text not containing the marker is an
unconditional fatal compile error whose message names the text. -/
theorem c6_amended_globalasm (ctx : ExternalCtx) (lk : Linkage) (asm : String) :
    trans_mono_item ctx (MonoItem.GlobalAsm asm) lk =
      (if strContains asm "__rust_probestack" then TransOutcome.ok []
       else TransOutcome.fatalErr ("Unimplemented global asm mono item \"" ++ asm ++ "\"")) :=
  rfl

/-- C7: when copying a cached work product into the session, a saved file
of any bytecode kind (anything other than `Object`) makes the copy loop
fail unconditionally with the "cg_clif doesn't use bytecode" panic: this
backend never consumes bytecode artifacts from the cache. -/
theorem c7_bytecode_panics (ctx : ExternalCtx) (cguName : String)
    (files : List (WorkProductFileKind × String)) (object : Option String) (s : Session)
    (h : ∃ e ∈ files, e.1 ≠ WorkProductFileKind.Object) :
    ∃ s2, copy_reused_files ctx cguName files object s =
      .error ("cg_clif doesn't use bytecode", s2) := by
  induction files generalizing object s with
  | nil =>
      obtain ⟨e, he, _⟩ := h
      cases he
  | cons f rest ih =>
      obtain ⟨kind, saved⟩ := f
      cases kind with
      | Object =>
          obtain ⟨e, he, hne⟩ := h
          rcases List.mem_cons.mp he with rfl | he2
          · exact absurd rfl hne
          · have hstep : copy_reused_files ctx cguName
                ((WorkProductFileKind.Object, saved) :: rest) object s =
                copy_reused_files ctx cguName rest (some (ctx.temp_path cguName))
                  (if ctx.copy_ok saved then
                    { s.emit (Event.copyFromCache (ctx.incr_comp_dir ++ "/" ++ saved)
                        (ctx.temp_path cguName)) with
                      files := (s.emit (Event.copyFromCache (ctx.incr_comp_dir ++ "/" ++ saved)
                        (ctx.temp_path cguName))).files ++ [ctx.temp_path cguName] }
                   else (s.emit (Event.copyFromCache (ctx.incr_comp_dir ++ "/" ++ saved)
                      (ctx.temp_path cguName))).err
                     ("unable to copy " ++ (ctx.incr_comp_dir ++ "/" ++ saved) ++ " to " ++
                       ctx.temp_path cguName)) := rfl
            rw [hstep]
            exact ih _ _ ⟨e, he2, hne⟩
      | Bytecode => exact ⟨s, rfl⟩
      | BytecodeCompressed => exact ⟨s, rfl⟩

/-- Witness for C7: a work product whose saved files include a bytecode
entry. -/
theorem c7_bytecode_panics_witness :
    ∃ s2, copy_reused_files testCtx "cgu0"
        [(WorkProductFileKind.Object, "a.o"), (WorkProductFileKind.Bytecode, "a.bc")]
        none emptySession =
      .error ("cg_clif doesn't use bytecode", s2) :=
  c7_bytecode_panics testCtx "cgu0"
    [(WorkProductFileKind.Object, "a.o"), (WorkProductFileKind.Bytecode, "a.bc")]
    none emptySession
    ⟨(WorkProductFileKind.Bytecode, "a.bc"), by simp, by decide⟩

theorem collect_jit_deps_spec (deps : List JitDep) (s : Session) :
    ∃ tail, (collect_jit_deps deps s).2.events = s.events ++ tail ∧
      (∀ e ∈ tail, isTranslationEvent e = false) ∧
      (collect_jit_deps deps s).2.errors =
        s.errors + deps.countP (fun d => d.linkage == DepLinkage.Static) ∧
      (∀ d ∈ deps, d.linkage = DepLinkage.Static →
        Event.sessionErr ("Can't load static lib " ++ d.name) ∈ tail) := by
  induction deps generalizing s with
  | nil =>
      refine ⟨[], by simp [collect_jit_deps], by simp, by simp [collect_jit_deps], ?_⟩
      intro d hd
      cases hd
  | cons d rest ih =>
      cases hl : d.linkage with
      | Static =>
          have hstep : collect_jit_deps (d :: rest) s =
              collect_jit_deps rest (s.err ("Can't load static lib " ++ d.name)) := by
            rw [collect_jit_deps, hl]
          obtain ⟨tail, hev, hnt, herr, hmem⟩ := ih (s.err ("Can't load static lib " ++ d.name))
          refine ⟨Event.sessionErr ("Can't load static lib " ++ d.name) :: tail, ?_, ?_, ?_, ?_⟩
          · rw [hstep, hev]
            simp [Session.err]
          · intro e he
            rcases List.mem_cons.mp he with rfl | he2
            · rfl
            · exact hnt e he2
          · rw [hstep, herr]
            simp [Session.err, List.countP_cons, hl]
            omega
          · intro d2 hd2 hs2
            rcases List.mem_cons.mp hd2 with rfl | hd3
            · exact List.mem_cons_self _ _
            · exact List.mem_cons_of_mem _ (hmem d2 hd3 hs2)
      | Dynamic =>
          rcases hc : collect_jit_deps rest s with ⟨paths, s1⟩
          have hstep : collect_jit_deps (d :: rest) s = (d.dylib_path :: paths, s1) := by
            rw [collect_jit_deps, hl, hc]
          obtain ⟨tail, hev, hnt, herr, hmem⟩ := ih s
          rw [hc] at hev herr
          refine ⟨tail, by rw [hstep]; exact hev, hnt, ?_, ?_⟩
          · rw [hstep]
            rw [herr]
            simp [List.countP_cons, hl]
          · intro d2 hd2 hs2
            rcases List.mem_cons.mp hd2 with rfl | hd3
            · rw [hl] at hs2; cases hs2
            · exact hmem d2 hd3 hs2
      | NotLinked =>
          have hstep : collect_jit_deps (d :: rest) s = collect_jit_deps rest s := by
            rw [collect_jit_deps, hl]
          obtain ⟨tail, hev, hnt, herr, hmem⟩ := ih s
          refine ⟨tail, by rw [hstep]; exact hev, hnt, ?_, ?_⟩
          · rw [hstep, herr]
            simp [List.countP_cons, hl]
          · intro d2 hd2 hs2
            rcases List.mem_cons.mp hd2 with rfl | hd3
            · rw [hl] at hs2; cases hs2
            · exact hmem d2 hd3 hs2
      | IncludedFromDylib =>
          have hstep : collect_jit_deps (d :: rest) s = collect_jit_deps rest s := by
            rw [collect_jit_deps, hl]
          obtain ⟨tail, hev, hnt, herr, hmem⟩ := ih s
          refine ⟨tail, by rw [hstep]; exact hev, hnt, ?_, ?_⟩
          · rw [hstep, herr]
            simp [List.countP_cons, hl]
          · intro d2 hd2 hs2
            rcases List.mem_cons.mp hd2 with rfl | hd3
            · rw [hl] at hs2; cases hs2
            · exact hmem d2 hd3 hs2

/-- C9: in JIT mode, a statically linked dependency makes the run fail at
the symbol-resolution stage: the abort fires inside
`load_imported_symbols_for_jit`, the session records an error naming each
such dependency, and no translation of program items (no declaration, no
body generation) has happened by the time of the failure. -/
theorem c9_jit_static_dep_fatal (ctx : ExternalCtx) (crateName : String)
    (deps : List JitDep) (mono_items : List ItemEntry) (s : Session)
    (h : ∃ d ∈ deps, d.linkage = DepLinkage.Static) :
    ∃ s2, run_jit ctx crateName deps mono_items s =
        .error ("aborting due to previous errors", s2) ∧
      (∀ d ∈ deps, d.linkage = DepLinkage.Static →
        Event.sessionErr ("Can't load static lib " ++ d.name) ∈ s2.events) ∧
      ∃ tail, s2.events = s.events ++ tail ∧ ∀ e ∈ tail, isTranslationEvent e = false := by
  obtain ⟨tail, hev, hnt, herr, hmem⟩ := collect_jit_deps_spec deps s
  rcases hc : collect_jit_deps deps s with ⟨paths, s1⟩
  rw [hc] at hev herr
  have hcount : 0 < deps.countP (fun d => d.linkage == DepLinkage.Static) := by
    obtain ⟨d, hd, hs2⟩ := h
    exact List.countP_pos_iff.mpr ⟨d, hd, by simp [hs2]⟩
  have herrne : s1.errors ≠ 0 := by
    rw [herr]
    omega
  have habort : abort_if_errors s1 =
      .error ("aborting due to previous errors", s1.emit Event.checkpointErrors) := by
    rw [abort_if_errors]
    have hfalse : ((s1.emit Event.checkpointErrors).errors == 0) = false := by
      have : (s1.emit Event.checkpointErrors).errors = s1.errors := rfl
      rw [this]
      exact beq_eq_false_iff_ne.mpr herrne
    rw [hfalse]
    simp
  have hload : load_imported_symbols_for_jit ctx deps s =
      .error ("aborting due to previous errors", s1.emit Event.checkpointErrors) := by
    rw [load_imported_symbols_for_jit, hc]
    simp only [habort]
  refine ⟨s1.emit Event.checkpointErrors, ?_, ?_, ?_⟩
  · rw [run_jit, hload]
  · intro d hd hs2
    have : Event.sessionErr ("Can't load static lib " ++ d.name) ∈ s1.events := by
      rw [hev]
      exact List.mem_append_right _ (hmem d hd hs2)
    rw [Session.emit]
    exact List.mem_append_left _ this
  · refine ⟨tail ++ [Event.checkpointErrors], ?_, ?_⟩
    · rw [Session.emit, hev]
      simp
    · intro e he
      rcases List.mem_append.mp he with he2 | he2
      · exact hnt e he2
      · rcases List.mem_singleton.mp he2 with rfl
        rfl

/-- Witness for C9: one static and one dynamic dependency. -/
theorem c9_jit_static_dep_fatal_witness :
    ∃ s2, run_jit testCtx "mycrate"
        [{ name := "libfoo", linkage := DepLinkage.Static, dylib_path := "" },
         { name := "libbar", linkage := DepLinkage.Dynamic, dylib_path := "bar.so" }]
        [(MonoItem.Fn "a", RLinkage.External, Visibility.Default)] emptySession =
        .error ("aborting due to previous errors", s2) ∧
      (∀ d ∈ [{ name := "libfoo", linkage := DepLinkage.Static, dylib_path := "" },
              { name := "libbar", linkage := DepLinkage.Dynamic, dylib_path := "bar.so" }],
        JitDep.linkage d = DepLinkage.Static →
        Event.sessionErr ("Can't load static lib " ++ JitDep.name d) ∈ s2.events) ∧
      ∃ tail, s2.events = emptySession.events ++ tail ∧
        ∀ e ∈ tail, isTranslationEvent e = false :=
  c9_jit_static_dep_fatal testCtx "mycrate" _ _ emptySession
    ⟨{ name := "libfoo", linkage := DepLinkage.Static, dylib_path := "" }, by simp, rfl⟩

theorem copy_all_object (ctx : ExternalCtx) (cguName : String)
    (files : List (WorkProductFileKind × String)) (object : Option String) (s : Session)
    (hall : ∀ e ∈ files, e.1 = WorkProductFileKind.Object) :
    copy_reused_files ctx cguName files object s =
      .ok ((if files.isEmpty then object else some (ctx.temp_path cguName)),
        { errors := s.errors + files.countP (fun e => !ctx.copy_ok e.2),
          events := s.events ++ copyEvents ctx cguName files,
          files := s.files ++ files.filterMap (fun e =>
            if ctx.copy_ok e.2 then some (ctx.temp_path cguName) else none),
          cache_files := s.cache_files,
          work_products := s.work_products }) := by
  induction files generalizing object s with
  | nil => simp [copy_reused_files, copyEvents]
  | cons f rest ih =>
      obtain ⟨kind, saved⟩ := f
      have hk : kind = WorkProductFileKind.Object := hall (kind, saved) (List.mem_cons_self _ _)
      subst hk
      have hrest : ∀ e ∈ rest, e.1 = WorkProductFileKind.Object :=
        fun e he => hall e (List.mem_cons_of_mem _ he)
      have hstep : copy_reused_files ctx cguName
          ((WorkProductFileKind.Object, saved) :: rest) object s =
          copy_reused_files ctx cguName rest (some (ctx.temp_path cguName))
            (if ctx.copy_ok saved then
              { s.emit (Event.copyFromCache (ctx.incr_comp_dir ++ "/" ++ saved)
                  (ctx.temp_path cguName)) with
                files := (s.emit (Event.copyFromCache (ctx.incr_comp_dir ++ "/" ++ saved)
                  (ctx.temp_path cguName))).files ++ [ctx.temp_path cguName] }
             else (s.emit (Event.copyFromCache (ctx.incr_comp_dir ++ "/" ++ saved)
                (ctx.temp_path cguName))).err
               ("unable to copy " ++ (ctx.incr_comp_dir ++ "/" ++ saved) ++ " to " ++
                 ctx.temp_path cguName)) := rfl
      rw [hstep]
      cases hok : ctx.copy_ok saved with
      | true =>
          simp only [hok, if_true]
          rw [ih _ _ hrest]
          simp [copyEvents, List.countP_cons, List.filterMap_cons, hok,
            Session.emit, Session.err]
      | false =>
          simp only [hok, Bool.false_eq_true, if_false]
          rw [ih _ _ hrest]
          simp [copyEvents, List.countP_cons, List.filterMap_cons, hok,
            Session.emit, Session.err]
          omega

/-- C10: for a partition classified `ReusablePreFinal` whose cached work
product records only `Object`-kind files, the reuse path returns a
`CompiledModule` whose object field is the session temp path exactly when
the saved-file list is non-empty (i.e. contains an Object entry), computed
independently of whether each link-or-copy succeeds; every failed copy
adds one session error, and the session file list gains only the
successfully copied paths — so with all copies failing the module's
object field names a path that was never written. -/
theorem c10_reuse_object_field (cfg : Config) (ctx : ExternalCtx) (cgu : CodegenUnit)
    (g : DepGraph) (s : Session) (wp : WorkProduct)
    (hdis : cfg.incr_cache_disabled = false)
    (hen : g.is_fully_enabled = true)
    (hwp : g.previous_work_product cgu.name = some wp)
    (hnode : g.dep_node_exists cgu.name = false)
    (hgreen : g.green_nodes.contains cgu.name = true)
    (hall : ∀ e ∈ wp.saved_files, e.1 = WorkProductFileKind.Object) :
    ∃ s2, process_cgu cfg ctx cgu g s =
      .ok ({ name := cgu.name, kind := ModuleKind.Regular,
             object := (if wp.saved_files.isEmpty then none
                        else some (ctx.temp_path cgu.name)),
             bytecode := none, bytecode_compressed := none },
        { g with existing_nodes := cgu.name :: g.existing_nodes }, s2) ∧
      s2.errors = s.errors + wp.saved_files.countP (fun e => !ctx.copy_ok e.2) ∧
      s2.files = s.files ++ wp.saved_files.filterMap (fun e =>
        if ctx.copy_ok e.2 then some (ctx.temp_path cgu.name) else none) := by
  have hdet : determine_cgu_reuse g cgu =
      .ok (CguReuse.PreLto, { g with existing_nodes := cgu.name :: g.existing_nodes }) := by
    rw [determine_cgu_reuse_fresh g cgu hen (by rw [hwp]; rfl) hnode, hgreen]
    simp
  have hwp2 : DepGraph.previous_work_product
      { g with existing_nodes := cgu.name :: g.existing_nodes } cgu.name = some wp := hwp
  have hcopy := copy_all_object ctx cgu.name wp.saved_files none
    (s.emit (Event.setActualReuse cgu.name CguReuse.PreLto)) hall
  rw [process_cgu]
  simp only [hdet, hdis, Bool.false_eq_true, if_false, hwp2, hcopy]
  refine ⟨_, rfl, ?_, ?_⟩
  · simp [Session.emit]
  · simp [Session.emit]

/-- Witness for C10: two cached Object files, the first copy failing and
the second succeeding. -/
theorem c10_reuse_object_field_witness :
    ∃ s2, process_cgu { incr_cache_disabled := false }
        { testCtx with copy_ok := fun p => p == "f2" }
        { name := "cgu0", items := [] }
        { is_fully_enabled := true,
          previous_work_products :=
            [("cgu0", { saved_files := [(WorkProductFileKind.Object, "f1"),
                                        (WorkProductFileKind.Object, "f2")] })],
          existing_nodes := [], green_nodes := ["cgu0"] }
        emptySession =
      .ok ({ name := "cgu0", kind := ModuleKind.Regular,
             object := (if ([(WorkProductFileKind.Object, "f1"),
                             (WorkProductFileKind.Object, "f2")] :
                          List (WorkProductFileKind × String)).isEmpty then none
                        else some (ExternalCtx.temp_path
                          { testCtx with copy_ok := fun p => p == "f2" } "cgu0")),
             bytecode := none, bytecode_compressed := none },
        { is_fully_enabled := true,
          previous_work_products :=
            [("cgu0", { saved_files := [(WorkProductFileKind.Object, "f1"),
                                        (WorkProductFileKind.Object, "f2")] })],
          existing_nodes := ["cgu0"], green_nodes := ["cgu0"] }, s2) ∧
      s2.errors = emptySession.errors +
        ([(WorkProductFileKind.Object, "f1"), (WorkProductFileKind.Object, "f2")] :
          List (WorkProductFileKind × String)).countP
            (fun e => !(ExternalCtx.copy_ok { testCtx with copy_ok := fun p => p == "f2" } e.2)) ∧
      s2.files = emptySession.files ++
        ([(WorkProductFileKind.Object, "f1"), (WorkProductFileKind.Object, "f2")] :
          List (WorkProductFileKind × String)).filterMap (fun e =>
            if ExternalCtx.copy_ok { testCtx with copy_ok := fun p => p == "f2" } e.2 then
              some (ExternalCtx.temp_path { testCtx with copy_ok := fun p => p == "f2" } "cgu0")
            else none) :=
  c10_reuse_object_field _ _ _ _ emptySession
    { saved_files := [(WorkProductFileKind.Object, "f1"),
                      (WorkProductFileKind.Object, "f2")] }
    rfl rfl (by rfl) (by rfl) (by rfl) (by decide)

theorem codegen_mono_items_spec (ctx : ExternalCtx) (items : List ItemEntry)
    (s s2 : Session) (h : codegen_mono_items ctx items s = .ok s2) :
    ∃ tail, s2.events = s.events ++ tail ∧ Event.checkpointErrors ∉ tail ∧
      s2.files = s.files ∧ s2.cache_files = s.cache_files ∧
      s2.work_products = s.work_products := by
  rw [codegen_mono_items] at h
  cases hloop : codegen_items_loop ctx items (predefine_functions ctx items s) with
  | error e => rw [hloop] at h; cases h
  | ok smid =>
      rw [hloop] at h
      cases h
      obtain ⟨tail, htail, hnd, hf, hc, hw⟩ := codegen_items_loop_events ctx items _ smid hloop
      rw [predefine_functions_eq] at htail hf hc hw
      refine ⟨declares ctx items ++ tail ++ [Event.finalizeCx], ?_, ?_, hf, hc, hw⟩
      · rw [Session.emit, htail, Session.emits]
        simp
      · intro hmem
        rcases List.mem_append.mp hmem with hmem2 | hmem2
        · rcases List.mem_append.mp hmem2 with hmem3 | hmem3
          · have := declares_all_declare ctx items _ hmem3
            simp [isDeclareEvent] at this
          · exact (hnd _ hmem3).2 rfl
        · rcases List.mem_singleton.mp hmem2 with h2
          cases h2

theorem emit_module_events (cfg : Config) (ctx : ExternalCtx) (name : String)
    (kind : ModuleKind) (s : Session) :
    ∃ tail, (emit_module cfg ctx name kind s).2.events = s.events ++ tail ∧
      Event.checkpointErrors ∉ tail ∧
      (emit_module cfg ctx name kind s).2.errors = s.errors ∧
      (emit_module cfg ctx name kind s).2.work_products = s.work_products := by
  by_cases hdis : cfg.incr_cache_disabled = true
  · exact ⟨[Event.writeObj (ctx.temp_path name)],
      by simp [emit_module, hdis], by simp, by simp [emit_module, hdis],
      by simp [emit_module, hdis]⟩
  · by_cases hper : ctx.persist_ok name = true
    · exact ⟨[Event.writeObj (ctx.temp_path name), Event.persistWorkProduct name],
        by simp [emit_module, hdis, hper], by simp, by simp [emit_module, hdis, hper],
        by simp [emit_module, hdis, hper]⟩
    · exact ⟨[Event.writeObj (ctx.temp_path name)],
        by simp [emit_module, hdis, hper], by simp, by simp [emit_module, hdis, hper],
        by simp [emit_module, hdis, hper]⟩

theorem emit_module_disabled (cfg : Config) (ctx : ExternalCtx) (name : String)
    (kind : ModuleKind) (s : Session) (hdis : cfg.incr_cache_disabled = true) :
    emit_module cfg ctx name kind s =
      (({ name := name, kind := kind, object := some (ctx.temp_path name),
          bytecode := none, bytecode_compressed := none }, none),
       { s with files := s.files ++ [ctx.temp_path name],
                events := s.events ++ [Event.writeObj (ctx.temp_path name)] }) := by
  simp [emit_module, hdis]

theorem copy_reused_files_events (ctx : ExternalCtx) (cguName : String)
    (files : List (WorkProductFileKind × String)) (object : Option String)
    (s : Session) (r : Option String) (s2 : Session)
    (h : copy_reused_files ctx cguName files object s = .ok (r, s2)) :
    ∃ tail, s2.events = s.events ++ tail ∧ Event.checkpointErrors ∉ tail ∧
      s2.cache_files = s.cache_files ∧ s2.work_products = s.work_products := by
  induction files generalizing object s with
  | nil =>
      rw [copy_reused_files] at h
      cases h
      exact ⟨[], by simp, by simp, rfl, rfl⟩
  | cons f rest ih =>
      obtain ⟨kind, saved⟩ := f
      cases kind with
      | Object =>
          have hstep : copy_reused_files ctx cguName
              ((WorkProductFileKind.Object, saved) :: rest) object s =
              copy_reused_files ctx cguName rest (some (ctx.temp_path cguName))
                (if ctx.copy_ok saved then
                  { s.emit (Event.copyFromCache (ctx.incr_comp_dir ++ "/" ++ saved)
                      (ctx.temp_path cguName)) with
                    files := (s.emit (Event.copyFromCache (ctx.incr_comp_dir ++ "/" ++ saved)
                      (ctx.temp_path cguName))).files ++ [ctx.temp_path cguName] }
                 else (s.emit (Event.copyFromCache (ctx.incr_comp_dir ++ "/" ++ saved)
                    (ctx.temp_path cguName))).err
                   ("unable to copy " ++ (ctx.incr_comp_dir ++ "/" ++ saved) ++ " to " ++
                     ctx.temp_path cguName)) := rfl
          rw [hstep] at h
          obtain ⟨tail, hev, hcp, hc, hw⟩ := ih _ _ h
          cases hok : ctx.copy_ok saved with
          | true =>
              rw [hok] at hev hc hw
              refine ⟨Event.copyFromCache (ctx.incr_comp_dir ++ "/" ++ saved)
                  (ctx.temp_path cguName) :: tail, ?_, ?_, ?_, ?_⟩
              · rw [hev]; simp [Session.emit]
              · intro hmem
                rcases List.mem_cons.mp hmem with h2 | h2
                · cases h2
                · exact hcp h2
              · rw [hc]; simp [Session.emit]
              · rw [hw]; simp [Session.emit]
          | false =>
              rw [hok] at hev hc hw
              refine ⟨Event.copyFromCache (ctx.incr_comp_dir ++ "/" ++ saved)
                  (ctx.temp_path cguName) ::
                Event.sessionErr ("unable to copy " ++ (ctx.incr_comp_dir ++ "/" ++ saved) ++
                  " to " ++ ctx.temp_path cguName) :: tail, ?_, ?_, ?_, ?_⟩
              · rw [hev]; simp [Session.emit, Session.err]
              · intro hmem
                rcases List.mem_cons.mp hmem with h2 | h2
                · cases h2
                · rcases List.mem_cons.mp h2 with h3 | h3
                  · cases h3
                  · exact hcp h3
              · rw [hc]; simp [Session.emit, Session.err]
              · rw [hw]; simp [Session.emit, Session.err]
      | Bytecode =>
          have hpanic : copy_reused_files ctx cguName
              ((WorkProductFileKind.Bytecode, saved) :: rest) object s =
              .error ("cg_clif doesn't use bytecode", s) := rfl
          rw [hpanic] at h
          cases h
      | BytecodeCompressed =>
          have hpanic : copy_reused_files ctx cguName
              ((WorkProductFileKind.BytecodeCompressed, saved) :: rest) object s =
              .error ("cg_clif doesn't use bytecode", s) := rfl
          rw [hpanic] at h
          cases h

theorem module_codegen_and_register_events (cfg : Config) (ctx : ExternalCtx)
    (cgu : CodegenUnit) (g : DepGraph) (s : Session) (m : CompiledModule)
    (g2 : DepGraph) (s2 : Session)
    (h : module_codegen_and_register cfg ctx cgu g s = .ok (m, g2, s2)) :
    ∃ tail, s2.events = s.events ++ tail ∧ Event.checkpointErrors ∉ tail := by
  rw [module_codegen_and_register] at h
  cases hcg : codegen_mono_items ctx cgu.items s with
  | error e => rw [hcg] at h; cases h
  | ok s1 =>
      rw [hcg] at h
      simp only [] at h
      obtain ⟨tail1, hev1, hcp1, _, _, _⟩ := codegen_mono_items_spec ctx cgu.items s s1 hcg
      obtain ⟨tail2, hev2, hcp2, _, _⟩ := emit_module_events cfg ctx cgu.name ModuleKind.Regular s1
      rcases hem : emit_module cfg ctx cgu.name ModuleKind.Regular s1 with ⟨⟨module, owp⟩, s3⟩
      rw [hem] at h hev2
      cases owp with
      | some p =>
          obtain ⟨id, product⟩ := p
          simp only [] at h
          cases h
          refine ⟨tail1 ++ tail2 ++ [Event.registerWorkProduct id], ?_, ?_⟩
          · show s3.events ++ [Event.registerWorkProduct id] = _
            rw [hev2, hev1]
            simp
          · intro hmem
            rcases List.mem_append.mp hmem with h2 | h2
            · rcases List.mem_append.mp h2 with h3 | h3
              · exact hcp1 h3
              · exact hcp2 h3
            · rcases List.mem_singleton.mp h2 with h3
              cases h3
      | none =>
          simp only [] at h
          cases h
          refine ⟨tail1 ++ tail2, ?_, ?_⟩
          · rw [hev2, hev1]; simp
          · intro hmem
            rcases List.mem_append.mp hmem with h2 | h2
            · exact hcp1 h2
            · exact hcp2 h2

theorem module_codegen_and_register_disabled (cfg : Config) (ctx : ExternalCtx)
    (cgu : CodegenUnit) (g : DepGraph) (s : Session) (m : CompiledModule)
    (g2 : DepGraph) (s2 : Session)
    (hdis : cfg.incr_cache_disabled = true)
    (h : module_codegen_and_register cfg ctx cgu g s = .ok (m, g2, s2)) :
    s2.cache_files = s.cache_files ∧ s2.work_products = s.work_products := by
  rw [module_codegen_and_register] at h
  cases hcg : codegen_mono_items ctx cgu.items s with
  | error e => rw [hcg] at h; cases h
  | ok s1 =>
      rw [hcg] at h
      simp only [] at h
      obtain ⟨_, _, _, _, hc1, hw1⟩ := codegen_mono_items_spec ctx cgu.items s s1 hcg
      rw [emit_module_disabled cfg ctx cgu.name ModuleKind.Regular s1 hdis] at h
      simp only [] at h
      cases h
      exact ⟨hc1, hw1⟩

theorem process_cgu_events (cfg : Config) (ctx : ExternalCtx) (cgu : CodegenUnit)
    (g : DepGraph) (s : Session) (m : CompiledModule) (g2 : DepGraph) (s2 : Session)
    (h : process_cgu cfg ctx cgu g s = .ok (m, g2, s2)) :
    ∃ tail, s2.events = s.events ++ tail ∧ Event.checkpointErrors ∉ tail := by
  rw [process_cgu] at h
  cases hdet : determine_cgu_reuse g cgu with
  | error e => rw [hdet] at h; cases h
  | ok pr =>
      obtain ⟨reuse, g1⟩ := pr
      rw [hdet] at h
      simp only [] at h
      by_cases hdis : cfg.incr_cache_disabled = true
      · rw [if_pos hdis] at h
        obtain ⟨tail, hev, hcp⟩ := module_codegen_and_register_events _ _ _ _ _ _ _ _ h
        refine ⟨Event.setActualReuse cgu.name reuse :: tail, ?_, ?_⟩
        · rw [hev]; simp [Session.emit]
        · intro hmem
          rcases List.mem_cons.mp hmem with h2 | h2
          · cases h2
          · exact hcp h2
      · rw [if_neg hdis] at h
        cases reuse with
        | No =>
            simp only [] at h
            obtain ⟨tail, hev, hcp⟩ := module_codegen_and_register_events _ _ _ _ _ _ _ _ h
            refine ⟨Event.setActualReuse cgu.name CguReuse.No :: tail, ?_, ?_⟩
            · rw [hev]; simp [Session.emit]
            · intro hmem
              rcases List.mem_cons.mp hmem with h2 | h2
              · cases h2
              · exact hcp h2
        | PreLto =>
            simp only [] at h
            cases hwp : g1.previous_work_product cgu.name with
            | none => rw [hwp] at h; simp only [] at h; cases h
            | some wp =>
                rw [hwp] at h
                simp only [] at h
                cases hcopy : copy_reused_files ctx cgu.name wp.saved_files none
                    (s.emit (Event.setActualReuse cgu.name CguReuse.PreLto)) with
                | error e => rw [hcopy] at h; cases h
                | ok pr2 =>
                    obtain ⟨object, s3⟩ := pr2
                    rw [hcopy] at h
                    simp only [] at h
                    cases h
                    obtain ⟨tail, hev, hcp, _, _⟩ :=
                      copy_reused_files_events _ _ _ _ _ _ _ hcopy
                    refine ⟨Event.setActualReuse cgu.name CguReuse.PreLto :: tail ++
                      [Event.registerWorkProduct cgu.name], ?_, ?_⟩
                    · show s3.events ++ [Event.registerWorkProduct cgu.name] = _
                      rw [hev]
                      simp [Session.emit]
                    · intro hmem
                      rcases List.mem_cons.mp hmem with h2 | h2
                      · cases h2
                      · rcases List.mem_append.mp h2 with h3 | h3
                        · exact hcp h3
                        · rcases List.mem_singleton.mp h3 with h4
                          cases h4
        | PostLto => simp only [] at h; cases h

theorem process_cgu_disabled_preserves (cfg : Config) (ctx : ExternalCtx)
    (cgu : CodegenUnit) (g : DepGraph) (s : Session) (m : CompiledModule)
    (g2 : DepGraph) (s2 : Session)
    (hdis : cfg.incr_cache_disabled = true)
    (h : process_cgu cfg ctx cgu g s = .ok (m, g2, s2)) :
    s2.cache_files = s.cache_files ∧ s2.work_products = s.work_products := by
  rw [process_cgu] at h
  cases hdet : determine_cgu_reuse g cgu with
  | error e => rw [hdet] at h; cases h
  | ok pr =>
      obtain ⟨reuse, g1⟩ := pr
      rw [hdet] at h
      simp only [] at h
      rw [if_pos hdis] at h
      have hpres := module_codegen_and_register_disabled cfg ctx cgu g1
        (s.emit (Event.setActualReuse cgu.name reuse)) m g2 s2 hdis h
      exact hpres

theorem process_cgus_events (cfg : Config) (ctx : ExternalCtx) (cgus : List CodegenUnit)
    (g : DepGraph) (s : Session) (ms : List CompiledModule) (g2 : DepGraph) (s2 : Session)
    (h : process_cgus cfg ctx cgus g s = .ok (ms, g2, s2)) :
    ∃ tail, s2.events = s.events ++ tail ∧ Event.checkpointErrors ∉ tail := by
  induction cgus generalizing g s ms with
  | nil =>
      rw [process_cgus] at h
      cases h
      exact ⟨[], by simp, by simp⟩
  | cons cgu rest ih =>
      rw [process_cgus] at h
      cases hp : process_cgu cfg ctx cgu g s with
      | error e => rw [hp] at h; cases h
      | ok tr =>
          obtain ⟨m, g1, s1⟩ := tr
          rw [hp] at h
          simp only [] at h
          cases hr : process_cgus cfg ctx rest g1 s1 with
          | error e => rw [hr] at h; cases h
          | ok tr2 =>
              obtain ⟨ms2, g3, s3⟩ := tr2
              rw [hr] at h
              simp only [] at h
              cases h
              obtain ⟨tail1, hev1, hcp1⟩ := process_cgu_events _ _ _ _ _ _ _ _ hp
              obtain ⟨tail2, hev2, hcp2⟩ := ih _ _ _ hr
              refine ⟨tail1 ++ tail2, ?_, ?_⟩
              · rw [hev2, hev1]; simp
              · intro hmem
                rcases List.mem_append.mp hmem with h2 | h2
                · exact hcp1 h2
                · exact hcp2 h2

theorem process_cgus_disabled_preserves (cfg : Config) (ctx : ExternalCtx)
    (cgus : List CodegenUnit) (g : DepGraph) (s : Session) (ms : List CompiledModule)
    (g2 : DepGraph) (s2 : Session)
    (hdis : cfg.incr_cache_disabled = true)
    (h : process_cgus cfg ctx cgus g s = .ok (ms, g2, s2)) :
    s2.cache_files = s.cache_files ∧ s2.work_products = s.work_products := by
  induction cgus generalizing g s ms with
  | nil =>
      rw [process_cgus] at h
      cases h
      exact ⟨rfl, rfl⟩
  | cons cgu rest ih =>
      rw [process_cgus] at h
      cases hp : process_cgu cfg ctx cgu g s with
      | error e => rw [hp] at h; cases h
      | ok tr =>
          obtain ⟨m, g1, s1⟩ := tr
          rw [hp] at h
          simp only [] at h
          cases hr : process_cgus cfg ctx rest g1 s1 with
          | error e => rw [hr] at h; cases h
          | ok tr2 =>
              obtain ⟨ms2, g3, s3⟩ := tr2
              rw [hr] at h
              simp only [] at h
              cases h
              obtain ⟨hc1, hw1⟩ := process_cgu_disabled_preserves _ _ _ _ _ _ _ _ hdis hp
              obtain ⟨hc2, hw2⟩ := ih _ _ _ hr
              exact ⟨hc2.trans hc1, hw2.trans hw1⟩

theorem abort_if_errors_ok (s s2 : Session) (h : abort_if_errors s = .ok s2) :
    s2 = s.emit Event.checkpointErrors ∧ s2.errors = 0 := by
  rw [abort_if_errors] at h
  split at h
  case isTrue hz =>
      cases h
      exact ⟨rfl, by simpa using hz⟩
  case isFalse hz => cases h

theorem emit_allocator_spec (cfg : Config) (ctx : ExternalCtx) (s : Session) :
    ∃ tail, (emit_allocator cfg ctx s).2.events = s.events ++ tail ∧
      Event.checkpointErrors ∉ tail ∧
      (emit_allocator cfg ctx s).2.errors = s.errors ∧
      (cfg.incr_cache_disabled = true →
        (emit_allocator cfg ctx s).2.cache_files = s.cache_files ∧
        (emit_allocator cfg ctx s).2.work_products = s.work_products) := by
  by_cases hshim : ctx.alloc_shim = true
  · rcases hem : emit_module cfg ctx "allocator_shim" ModuleKind.Allocator s with ⟨⟨m, owp⟩, sa⟩
    obtain ⟨tail2, hev2, hcp2, herr2, hwp2⟩ :=
      emit_module_events cfg ctx "allocator_shim" ModuleKind.Allocator s
    rw [hem] at hev2 herr2 hwp2
    cases owp with
    | some p =>
        obtain ⟨id, product⟩ := p
        have hres : emit_allocator cfg ctx s =
            (some m, { sa with work_products := wpInsert sa.work_products id product,
                               events := sa.events ++ [Event.registerWorkProduct id] }) := by
          rw [emit_allocator, if_pos hshim, hem]
        rw [hres]
        refine ⟨tail2 ++ [Event.registerWorkProduct id], ?_, ?_, herr2, ?_⟩
        · show sa.events ++ [Event.registerWorkProduct id] = _
          rw [hev2]; simp
        · intro hmem
          rcases List.mem_append.mp hmem with h2 | h2
          · exact hcp2 h2
          · rcases List.mem_singleton.mp h2 with h3
            cases h3
        · intro hdis
          rw [emit_module_disabled cfg ctx "allocator_shim" ModuleKind.Allocator s hdis] at hem
          simp at hem
    | none =>
        have hres : emit_allocator cfg ctx s = (some m, sa) := by
          rw [emit_allocator, if_pos hshim, hem]
        rw [hres]
        refine ⟨tail2, hev2, hcp2, herr2, ?_⟩
        intro hdis
        rw [emit_module_disabled cfg ctx "allocator_shim" ModuleKind.Allocator s hdis] at hem
        simp only [Prod.mk.injEq] at hem
        obtain ⟨⟨hm1, _⟩, hsa⟩ := hem
        constructor
        · show sa.cache_files = s.cache_files
          rw [← hsa]
        · show sa.work_products = s.work_products
          rw [← hsa]
  · have hres : emit_allocator cfg ctx s = (none, s) := by
      rw [emit_allocator, if_neg hshim]
    rw [hres]
    exact ⟨[], by simp, by simp, rfl, fun _ => ⟨rfl, rfl⟩⟩

theorem emit_metadata_spec (ctx : ExternalCtx) (crateName : String) (nm : Bool)
    (s : Session) :
    ∃ tail, (emit_metadata ctx crateName nm s).2.events = s.events ++ tail ∧
      Event.checkpointErrors ∉ tail ∧
      (emit_metadata ctx crateName nm s).2.errors = s.errors ∧
      (emit_metadata ctx crateName nm s).2.cache_files = s.cache_files ∧
      (emit_metadata ctx crateName nm s).2.work_products = s.work_products := by
  by_cases hnm : nm = true
  · exact ⟨[Event.writeObj (ctx.metadata_temp_path (ctx.metadata_cgu_name crateName))],
      by simp [emit_metadata, hnm], by simp, by simp [emit_metadata, hnm],
      by simp [emit_metadata, hnm], by simp [emit_metadata, hnm]⟩
  · exact ⟨[], by simp [emit_metadata, hnm], by simp, by simp [emit_metadata, hnm],
      by simp [emit_metadata, hnm], by simp [emit_metadata, hnm]⟩

theorem run_aot_ok_spec (cfg : Config) (ctx : ExternalCtx) (crateName : String)
    (cgus : List CodegenUnit) (g : DepGraph) (nm : Bool) (s : Session)
    (res : CodegenResults) (wps : List (String × WorkProduct)) (s2 : Session)
    (h : run_aot cfg ctx crateName cgus g nm s = .ok (res, wps, s2)) :
    ∃ modules g1 s1,
      process_cgus cfg ctx cgus g s = .ok (modules, g1, s1) ∧
      s1.errors = 0 ∧
      s2.errors = 0 ∧
      wps = s2.work_products ∧
      (∃ tail, s2.events = s1.events ++ Event.checkpointErrors :: tail ∧
        Event.checkpointErrors ∉ tail) ∧
      (cfg.incr_cache_disabled = true →
        s2.cache_files = s1.cache_files ∧ s2.work_products = s1.work_products) := by
  rw [run_aot] at h
  cases hp : process_cgus cfg ctx cgus g s with
  | error e => rw [hp] at h; cases h
  | ok tr =>
      obtain ⟨modules, g1, s1⟩ := tr
      rw [hp] at h
      simp only [] at h
      cases ha : abort_if_errors s1 with
      | error e => rw [ha] at h; cases h
      | ok s2c =>
          rw [ha] at h
          simp only [] at h
          obtain ⟨hs2c, herr0⟩ := abort_if_errors_ok s1 s2c ha
          obtain ⟨tailA, hevA, hcpA, herrA, hdisA⟩ := emit_allocator_spec cfg ctx s2c
          obtain ⟨tailM, hevM, hcpM, herrM, hcM, hwM⟩ :=
            emit_metadata_spec ctx crateName nm (emit_allocator cfg ctx s2c).2
          rcases hal : emit_allocator cfg ctx s2c with ⟨am, s3⟩
          rw [hal] at h hevA herrA hdisA hevM herrM hcM hwM
          simp only [] at h hevA herrA hdisA hevM herrM hcM hwM
          rcases hmd : emit_metadata ctx crateName nm s3 with ⟨mm, s4⟩
          rw [hmd] at h hevM herrM hcM hwM
          simp only [] at h hevM herrM hcM hwM
          cases h
          refine ⟨modules, g1, s1, rfl, ?_, ?_, rfl, ?_, ?_⟩
          · have : s2c.errors = s1.errors := by rw [hs2c]; rfl
            rw [← this]
            exact herr0
          · rw [herrM, herrA]
            exact herr0
          · refine ⟨tailA ++ tailM, ?_, ?_⟩
            · rw [hevM, hevA, hs2c]
              simp [Session.emit]
            · intro hmem
              rcases List.mem_append.mp hmem with h2 | h2
              · exact hcpA h2
              · exact hcpM h2
          · intro hdis
            obtain ⟨hcA2, hwA2⟩ := hdisA hdis
            have hc1 : s2c.cache_files = s1.cache_files := by rw [hs2c]; rfl
            have hw1 : s2c.work_products = s1.work_products := by rw [hs2c]; rfl
            exact ⟨(hcM.trans hcA2).trans hc1, (hwM.trans hwA2).trans hw1⟩

/-- C4 counterexample: with the "disable incremental cache" switch set,
the reuse decision is still computed — at this concrete input the
partition is classified `PreLto`, the classification is reported to the
reuse tracker (the `setActualReuse` event appears in the trace) and the
marking attempt has mutated the dependency graph — refuting "no reuse
decision is computed".  (The switch does suppress registration and
persistence: the session work-product map and cache stay empty.) -/
theorem c4_counterexample :
    process_cgu { incr_cache_disabled := true } testCtx { name := "cgu0", items := [] }
        { is_fully_enabled := true,
          previous_work_products := [("cgu0", { saved_files := [] })],
          existing_nodes := [], green_nodes := ["cgu0"] } emptySession =
      .ok ({ name := "cgu0", kind := ModuleKind.Regular, object := some "tmp/cgu0.o",
             bytecode := none, bytecode_compressed := none },
        { is_fully_enabled := true,
          previous_work_products := [("cgu0", { saved_files := [] })],
          existing_nodes := ["cgu0", "cgu0"], green_nodes := ["cgu0"] },
        { errors := 0,
          events := [Event.setActualReuse "cgu0" CguReuse.PreLto, Event.finalizeCx,
                     Event.writeObj "tmp/cgu0.o"],
          files := ["tmp/cgu0.o"], cache_files := [], work_products := [] }) ∧
    Event.setActualReuse "cgu0" CguReuse.PreLto ∈
      [Event.setActualReuse "cgu0" CguReuse.PreLto, Event.finalizeCx,
       Event.writeObj "tmp/cgu0.o"] :=
  ⟨by rfl, by simp⟩

/-- C4 amended: with the "disable incremental cache" switch set, the reuse
decision is still computed and reported (its dependency-graph side effect
included) but its result is ignored — every partition is translated
fresh — and no work product is registered in the session map and no
artifact is persisted to the incremental cache: a completed run returns
the work-product map it started with and an unchanged cache. -/
theorem c4_amended_bypass (cfg : Config) (ctx : ExternalCtx) (crateName : String)
    (cgus : List CodegenUnit) (g : DepGraph) (nm : Bool) (s : Session)
    (res : CodegenResults) (wps : List (String × WorkProduct)) (s2 : Session)
    (hdis : cfg.incr_cache_disabled = true)
    (h : run_aot cfg ctx crateName cgus g nm s = .ok (res, wps, s2)) :
    wps = s.work_products ∧ s2.work_products = s.work_products ∧
      s2.cache_files = s.cache_files := by
  obtain ⟨modules, g1, s1, hp, _, _, hwps, _, hdisc⟩ :=
    run_aot_ok_spec cfg ctx crateName cgus g nm s res wps s2 h
  obtain ⟨hc2, hw2⟩ := hdisc hdis
  obtain ⟨hc1, hw1⟩ := process_cgus_disabled_preserves cfg ctx cgus g s modules g1 s1 hdis hp
  exact ⟨hwps.trans (hw2.trans hw1), hw2.trans hw1, hc2.trans hc1⟩

/-- Witness for the amended C4 at a concrete disabled-cache run. -/
theorem c4_amended_bypass_witness :
    ∃ res wps s2,
      run_aot { incr_cache_disabled := true } testCtx "mycrate"
        [{ name := "cgu0", items := [(MonoItem.Fn "a", RLinkage.External, Visibility.Default)] }]
        { is_fully_enabled := false, previous_work_products := [],
          existing_nodes := [], green_nodes := [] } false emptySession = .ok (res, wps, s2) ∧
      wps = emptySession.work_products ∧ s2.work_products = emptySession.work_products ∧
        s2.cache_files = emptySession.cache_files := by
  refine ⟨_, _, _, rfl, ?_⟩
  exact (c4_amended_bypass { incr_cache_disabled := true } testCtx "mycrate"
    [{ name := "cgu0", items := [(MonoItem.Fn "a", RLinkage.External, Visibility.Default)] }]
    { is_fully_enabled := false, previous_work_products := [],
      existing_nodes := [], green_nodes := [] } false emptySession _ _ _ rfl (by rfl))

/-- C5 counterexample: a complete successful AOT run whose trace contains
exactly one error-count checkpoint — the one after the full-batch
translation/emission phase — not two: no second consult happens before
the manifest is returned. -/
theorem c5_counterexample :
    ∃ res wps s2,
      run_aot { incr_cache_disabled := false } testCtx "mycrate"
        [{ name := "cgu0", items := [(MonoItem.Fn "a", RLinkage.External, Visibility.Default)] }]
        { is_fully_enabled := false, previous_work_products := [],
          existing_nodes := [], green_nodes := [] } false emptySession = .ok (res, wps, s2) ∧
      s2.events.count Event.checkpointErrors = 1 := by
  refine ⟨_, _, _, rfl, ?_⟩
  rfl

/-- C5 amended: the orchestrator consults the accumulated error count
once, at the checkpoint after the full-batch translation/emission phase
(a completed run's trace contains exactly one more checkpoint event than
it started with), aborting there when the count is non-zero; no session
errors are recorded after that checkpoint, so a run that returns a
manifest finishes with a zero error count — a manifest is never produced
while errors are outstanding. -/
theorem c5_amended_single_checkpoint (cfg : Config) (ctx : ExternalCtx) (crateName : String)
    (cgus : List CodegenUnit) (g : DepGraph) (nm : Bool) (s : Session)
    (res : CodegenResults) (wps : List (String × WorkProduct)) (s2 : Session)
    (h : run_aot cfg ctx crateName cgus g nm s = .ok (res, wps, s2)) :
    s2.errors = 0 ∧
      s2.events.count Event.checkpointErrors = s.events.count Event.checkpointErrors + 1 := by
  obtain ⟨modules, g1, s1, hp, herr1, herr2, _, ⟨tail, hev, hcp⟩, _⟩ :=
    run_aot_ok_spec cfg ctx crateName cgus g nm s res wps s2 h
  obtain ⟨tail0, hev0, hcp0⟩ := process_cgus_events cfg ctx cgus g s modules g1 s1 hp
  refine ⟨herr2, ?_⟩
  rw [hev, hev0]
  rw [List.count_append, List.count_cons_self, List.count_append]
  rw [List.count_eq_zero.mpr hcp0, List.count_eq_zero.mpr hcp]

/-- Witness for the amended C5 at a concrete successful run. -/
theorem c5_amended_single_checkpoint_witness :
    ∃ res wps s2,
      run_aot { incr_cache_disabled := false } testCtx "mycrate"
        [{ name := "cgu1", items := [(MonoItem.Static 3, RLinkage.Internal, Visibility.Hidden)] }]
        { is_fully_enabled := false, previous_work_products := [],
          existing_nodes := [], green_nodes := [] } true emptySession = .ok (res, wps, s2) ∧
      s2.errors = 0 ∧
      s2.events.count Event.checkpointErrors = emptySession.events.count Event.checkpointErrors + 1 := by
  refine ⟨_, _, _, rfl, ?_⟩
  exact c5_amended_single_checkpoint { incr_cache_disabled := false } testCtx "mycrate"
    [{ name := "cgu1", items := [(MonoItem.Static 3, RLinkage.Internal, Visibility.Hidden)] }]
    { is_fully_enabled := false, previous_work_products := [],
      existing_nodes := [], green_nodes := [] } true emptySession _ _ _ (by rfl)

end CgClif
